/-
Verification of the batch time-estimation driver (estimate_time.py).

The program reads an input CSV of rows (columns `file_path`, `measures`),
looks each row's source text up in an on-disk cache keyed by the SHA-256
hex digest of `file_path`, issues `ask_repeats` inference requests per row
to a local model endpoint, parses each response as a JSON object with a
`seconds` field, records the parsed integer (or the sentinel -1 on any
attempt-local failure), and writes one output line per row.

Shallow embedding conventions:
 - the filesystem is a function `FS : String → Option String` (path to
   content; `none` models an unreadable/missing file);
 - the inference endpoint together with `json.loads` is an oracle
   `env : Nat → String → AttemptOutcome` (attempt index and prompt to
   outcome); the raw-text-to-JSON-value parse of the Python stdlib is part
   of the oracle, which reports either a transport/HTTP exception, a JSON
   parse failure, or the parsed JSON value;
 - `sys.exit(1)` is modelled by an exit code in the result;
 - functions additionally return the list of prompts they sent to the
   endpoint (an observation trace), so that claims about which requests
   were issued are statable.
-/
import Mathlib

set_option maxRecDepth 100000

namespace EstimateTime

/-! ### SHA-256 (hashlib.sha256(...).hexdigest()), on bytes as `Nat` -/

/-- Right rotation of a 32-bit word represented as a `Nat < 2^32`. -/
def rotr32 (k n : Nat) : Nat :=
  ((n >>> k) ||| (n <<< (32 - k))) % 4294967296

/-- The 64 SHA-256 round constants of FIPS 180-4, written in decimal. -/
def K256 : List Nat :=
  [1116352408, 1899447441, 3049323471, 3921009573, 961987163,
   1508970993, 2453635748, 2870763221, 3624381080, 310598401,
   607225278, 1426881987, 1925078388, 2162078206, 2614888103,
   3248222580, 3835390401, 4022224774, 264347078, 604807628,
   770255983, 1249150122, 1555081692, 1996064986, 2554220882,
   2821834349, 2952996808, 3210313671, 3336571891, 3584528711,
   113926993, 338241895, 666307205, 773529912, 1294757372,
   1396182291, 1695183700, 1986661051, 2177026350, 2456956037,
   2730485921, 2820302411, 3259730800, 3345764771, 3516065817,
   3600352804, 4094571909, 275423344, 430227734, 506948616,
   659060556, 883997877, 958139571, 1322822218, 1537002063,
   1747873779, 1955562222, 2024104815, 2227730452, 2361852424,
   2428436474, 2756734187, 3204031479, 3329325298]

/-- The initial SHA-256 hash state of FIPS 180-4, written in decimal. -/
def H256 : List Nat :=
  [1779033703, 3144134277, 1013904242, 2773480762,
   1359893119, 2600822924, 528734635, 1541459225]

/-- Group a byte list into big-endian 32-bit words (four bytes per word). -/
def bytesToWords : List Nat → List Nat
  | b0 :: b1 :: b2 :: b3 :: rest =>
      (b0 * 16777216 + b1 * 65536 + b2 * 256 + b3) :: bytesToWords rest
  | _ => []

/-- Group a word list into 16-word message blocks. -/
def chunk16 : List Nat → List (List Nat)
  | w0 :: w1 :: w2 :: w3 :: w4 :: w5 :: w6 :: w7 ::
    w8 :: w9 :: w10 :: w11 :: w12 :: w13 :: w14 :: w15 :: rest =>
      [w0, w1, w2, w3, w4, w5, w6, w7, w8, w9, w10, w11, w12, w13, w14, w15] :: chunk16 rest
  | _ => []

/-- Extend a 16-word block to the 64-word message schedule. -/
def msgSchedule (w16 : List Nat) : List Nat :=
  (List.range 48).foldl (fun w _ =>
    let i := w.length
    let w15 := w.getD (i - 15) 0
    let w2 := w.getD (i - 2) 0
    let s0 := (rotr32 7 w15) ^^^ (rotr32 18 w15) ^^^ (w15 >>> 3)
    let s1 := (rotr32 17 w2) ^^^ (rotr32 19 w2) ^^^ (w2 >>> 10)
    w ++ [(w.getD (i - 16) 0 + s0 + w.getD (i - 7) 0 + s1) % 4294967296]) w16

/-- One SHA-256 compression round over the eight-word working state. -/
def round256 (ws : List Nat) (s : List Nat) (i : Nat) : List Nat :=
  match s with
  | [a, b, c, d, e, f, g, h] =>
    let S1 := (rotr32 6 e) ^^^ (rotr32 11 e) ^^^ (rotr32 25 e)
    let ch := (e &&& f) ^^^ ((e ^^^ 0xFFFFFFFF) &&& g)
    let t1 := (h + S1 + ch + K256.getD i 0 + ws.getD i 0) % 4294967296
    let S0 := (rotr32 2 a) ^^^ (rotr32 13 a) ^^^ (rotr32 22 a)
    let mj := (a &&& b) ^^^ (a &&& c) ^^^ (b &&& c)
    let t2 := (S0 + mj) % 4294967296
    [(t1 + t2) % 4294967296, a, b, c, (d + t1) % 4294967296, e, f, g]
  | s => s

/-- Compress one 16-word message block into the hash state. -/
def compressChunk (h : List Nat) (w16 : List Nat) : List Nat :=
  let ws := msgSchedule w16
  let st := (List.range 64).foldl (round256 ws) h
  (h.zip st).map (fun p => (p.1 + p.2) % 4294967296)

/-- SHA-256 of a message given as a list of bytes, as eight 32-bit words. -/
def sha256Words (msg : List Nat) : List Nat :=
  let L := msg.length
  let padLen := (64 - ((L + 9) % 64)) % 64
  let lenBytes := (List.range 8).map (fun j => ((L * 8) >>> (8 * (7 - j))) % 256)
  let padded := msg ++ (128 :: List.replicate padLen 0) ++ lenBytes
  (chunk16 (bytesToWords padded)).foldl compressChunk H256

/-- Lowercase hexadecimal rendering of a 32-bit word, eight digits. -/
def toHex8 (n : Nat) : String :=
  String.mk ((List.range 8).map (fun j => Nat.digitChar ((n >>> (4 * (7 - j))) % 16)))

/-- UTF-8 encoding of one character (Python `str.encode()`), bytes as `Nat`. -/
def utf8Bytes (c : Char) : List Nat :=
  let n := c.toNat
  if n < 128 then [n]
  else if n < 2048 then [192 + n / 64, 128 + n % 64]
  else if n < 65536 then [224 + n / 4096, 128 + (n / 64) % 64, 128 + n % 64]
  else [240 + n / 262144, 128 + (n / 4096) % 64, 128 + (n / 64) % 64, 128 + n % 64]

/-- UTF-8 encoding of a string (Python `str.encode()`), bytes as `Nat`. -/
def strBytes (s : String) : List Nat :=
  s.data.flatMap utf8Bytes

/-- `hashlib.sha256(s.encode()).hexdigest()`: lowercase hex digest of a string. -/
def sha256hex (s : String) : String :=
  String.join ((sha256Words (strBytes s)).map toHex8)

/-! ### JSON values and the Python conversion chain -/

/-- A value decoded by `json.loads`.  (JSON also has non-integral numbers;
`int()` truncates those.  Floating-point values are outside this model —
none of the properties under study depends on them.) -/
inductive JsonVal where
  | jnull
  | jbool (b : Bool)
  | jint (n : Int)
  | jstr (s : String)
  | jarr (elems : List JsonVal)
  | jobj (fields : List (String × JsonVal))

/-- Decimal digit run for Python `int(str)`: one or more ASCII digits.
`none` models `ValueError`. -/
def digitsToNat (cs : List Char) : Option Nat :=
  if cs = [] then none
  else cs.foldl (fun acc c =>
    match acc with
    | none => none
    | some n => if c.isDigit then some (n * 10 + (c.toNat - 48)) else none) (some 0)

/-- Python `int(s)` on a string: optional surrounding whitespace, an
optional sign, then decimal digits; anything else raises `ValueError`
(`none`).  (Python additionally accepts underscore digit-group
separators, which none of the inputs under study uses.) -/
def pyStrToInt (s : String) : Option Int :=
  let cs := ((s.data.dropWhile Char.isWhitespace).reverse.dropWhile Char.isWhitespace).reverse
  match cs with
  | '-' :: rest => (digitsToNat rest).map (fun n => -(n : Int))
  | '+' :: rest => (digitsToNat rest).map (fun n => (n : Int))
  | rest => (digitsToNat rest).map (fun n => (n : Int))

/-- Python `int(x)` on a value decoded from JSON: integers pass through
unchanged (no sign or range check), booleans become 0/1, numeric strings
are parsed, everything else raises `TypeError` (`none`). -/
def pyToInt : JsonVal → Option Int
  | .jint n => some n
  | .jbool b => some (if b then 1 else 0)
  | .jstr s => pyStrToInt s
  | _ => none

/-- Python subscript `output["seconds"]` on a decoded JSON value: a dict
lookup (`KeyError` when the key is absent), a `TypeError` on any non-dict
value; both exceptions are handled alike by the caller (`none`). -/
def jsonGet (v : JsonVal) (key : String) : Option JsonVal :=
  match v with
  | .jobj fields => fields.lookup key
  | _ => none

/-- `int(output["seconds"])` as one partial function. -/
def extractSeconds (v : JsonVal) : Option Int :=
  (jsonGet v "seconds").bind pyToInt

/-- Outcome of `json.loads(output_raw.strip())` on the text an attempt
received: the text fails to parse as JSON, or decodes to a value. -/
inductive ParseOutcome where
  | parseFail
  | parsed (v : JsonVal)

/-- Outcome of one inference request as seen by the `process_row` loop
body: `raises` covers every exception inside `ask_ollama_via_http`
(connection error, timeout, `raise_for_status`, non-JSON response body,
missing `response` field); otherwise the attempt obtained a text whose
parse outcome is recorded. -/
inductive AttemptOutcome where
  | raises
  | returns (p : ParseOutcome)

/-- The value the loop body appends for one attempt:
`int(json.loads(output_raw.strip())["seconds"])`, with every exception
along the way caught, logged, and replaced by the sentinel -1. -/
def attemptValue : AttemptOutcome → Int
  | .raises => -1
  | .returns .parseFail => -1
  | .returns (.parsed v) =>
      match extractSeconds v with
      | some n => n
      | none => -1

/-- FIPS 180-4 test vector: digest of the empty message. -/
theorem sha256hex_empty :
    sha256hex "" = "e3b0c44298fc1c149afbf4c8996fb92427ae41e4649b934ca495991b7852b855" := by
  decide

/-- FIPS 180-4 test vector: digest of "abc". -/
theorem sha256hex_abc :
    sha256hex "abc" = "ba7816bf8f01cfea414140de5dae2223b00361a396177a9cb410ff61f20015ad" := by
  decide

/-! ### Rows, the filesystem, and the prompt template -/

/-- One `csv.DictReader` row.  The claims under study all assume the
`file_path` column present; the `measures` column may be absent (`none`),
in which case `row["measures"]` raises `KeyError` where it is evaluated. -/
structure Row where
  file_path : String
  measures : Option String

/-- The filesystem visible to `read_source`: a path resolves to its text
content, or to `none` when opening or reading it fails. -/
def FS : Type := String → Option String

/-- `read_source`: returns the file content; on any read error it logs and
calls `sys.exit(1)`.  The resulting `SystemExit` is not an `Exception`, so
no handler in this program catches it: `none` here is a fatal exit that
the callers propagate. -/
def read_source (fs : FS) (path : String) : Option String := fs path

/-- The cache file consulted for a row: `cache_dir / (file_hash + ".txt")`
where `file_hash = hashlib.sha256(row["file_path"].encode()).hexdigest()`. -/
def cachePath (cache_dir file_path : String) : String :=
  cache_dir ++ "/" ++ sha256hex file_path ++ ".txt"

/-- Text of the `PROMPT` template before the `code` placeholder. -/
def PROMPT_head : String :=
  "You are simulating a junior developer who has:\n- **Basic knowledge of Java (syntax, classes, functions, control structures, basic OOP)**\n- **No prior knowledge of Apache Hive or its libraries**\n\nI will give you a piece of Java code that uses Apache Hive.\nEstimate, as precisely as possible, how many **seconds** this junior developer would need to fully understand the code.\n\"Understanding\" means:\n- They can explain what the code does overall\n- They can follow what each class/method does\n\nHere is the code:\n```java\n"

/-- Text of the `PROMPT` template after the `code` placeholder. -/
def PROMPT_tail : String :=
  "\n```\n\nDO NOT GREET, THINK, OR REASON. NO OTHER TEXT.\nReturn **only** a json object. Do not output anything else."

/-- The module-level `PROMPT` template with its single placeholder. -/
def PROMPT : String := PROMPT_head ++ "{code}" ++ PROMPT_tail

/-- `PROMPT.format(code=code)`: substitutes the source text for the one
placeholder of the template. -/
def PROMPT_format (code : String) : String := PROMPT_head ++ code ++ PROMPT_tail

/-- The inference endpoint as observed through `ask_ollama_via_http` and
`json.loads`: for an attempt index and the prompt sent, the environment
answers with the outcome of that request. -/
def InferEnv : Type := Nat → String → AttemptOutcome

/-! ### The row processor and the batch driver -/

/-- `process_row`: derives the cache key, reads the cached source (fatal
exit when unreadable), then runs `ask_repeats` sequential attempts, each
building the prompt afresh from the same source text and recording the
parsed value or the sentinel.  The first component is the trace of prompts
sent to the endpoint; the second is `some seconds`, or `none` when
`read_source` exited the process (no request is sent in that case). -/
def process_row (fs : FS) (env : InferEnv) (cache_dir : String)
    (row : Row) (ask_repeats : Nat) : List String × Option (List Int) :=
  match read_source fs (cachePath cache_dir row.file_path) with
  | none => ([], none)
  | some code =>
      let attempts := (List.range ask_repeats).map (fun i =>
        let prompt := PROMPT_format code
        (prompt, attemptValue (env i prompt)))
      (attempts.map Prod.fst, some (attempts.map Prod.snd))

/-- The output header row:
`["file_path", "our_seconds"] + [f"llm_seconds_{i}" for i in range(ask_repeats)]`. -/
def headerRow (ask_repeats : Nat) : List String :=
  ["file_path", "our_seconds"] ++
    (List.range ask_repeats).map (fun i => "llm_seconds_" ++ toString i)

/-- One data line `[file_path, row["measures"]] + seconds`; the csv writer
renders each integer cell with `str()`. -/
def lineFor (row : Row) (m : String) (seconds : List Int) : List String :=
  row.file_path :: m :: seconds.map toString

/-- `open(output_csv, "w")`: write mode truncates, so whatever the output
file held before the run is discarded. -/
def open_w (_prev : List (List String)) : List (List String) := []

/-- The row loop of `process_rows`, starting at row index `r` (the index
only selects the slice of the environment a row's attempts consult).  On
success the row's line is written and the loop continues.  `read_source`'s
`sys.exit(1)` passes through the `except Exception` handler uncaught, and
the `KeyError` from `row["measures"]` is caught by that handler which then
calls `sys.exit(1)`: both abort the run with exit code 1 before writing a
line for the current row, keeping every line already written (the `with`
block closes and flushes the file).  `KeyboardInterrupt` (operator
interruption, also exit 1) is an external asynchronous event and is not
modelled.  Returns the trace of prompts sent, the data lines written from
this point on, and the exit code (0 = completed). -/
def process_rows_loop (fs : FS) (env : Nat → InferEnv) (cache_dir : String)
    (ask_repeats : Nat) : Nat → List Row → List String × List (List String) × Nat
  | _, [] => ([], [], 0)
  | r, row :: rest =>
      let pr := process_row fs (env r) cache_dir row ask_repeats
      match pr.2 with
      | none => (pr.1, [], 1)
      | some seconds =>
          match row.measures with
          | none => (pr.1, [], 1)
          | some m =>
              let res := process_rows_loop fs env cache_dir ask_repeats (r + 1) rest
              (pr.1 ++ res.1, lineFor row m seconds :: res.2.1, res.2.2)

/-- `process_rows`: opens the output CSV in write mode (truncating `prev`,
the file's previous content), writes the header, then runs the loop over
the input rows (read upfront by `read_input_csv`, an external CSV
primitive, so they are a parameter here).  Returns the prompt trace, the
final content of the output file, and the process exit code. -/
def process_rows (fs : FS) (env : Nat → InferEnv) (cache_dir : String)
    (ask_repeats : Nat) (prev : List (List String)) (input_rows : List Row) :
    List String × List (List String) × Nat :=
  let file0 := open_w prev
  let file1 := file0 ++ [headerRow ask_repeats]
  let res := process_rows_loop fs env cache_dir ask_repeats 0 input_rows
  (res.1, file1 ++ res.2.1, res.2.2)

/-! ### Basic facts about the row processor -/

/-- Unfolding of `process_row` when the cached source resolves. -/
theorem process_row_resolved (fs : FS) (env : InferEnv) (cd : String) (row : Row)
    (reps : Nat) (code : String) (h : fs (cachePath cd row.file_path) = some code) :
    process_row fs env cd row reps =
      (List.replicate reps (PROMPT_format code),
       some ((List.range reps).map (fun i => attemptValue (env i (PROMPT_format code))))) := by
  simp only [process_row, read_source, h]
  refine Prod.ext ?_ (by simp)
  have hc : (Prod.fst ∘ fun i =>
      (PROMPT_format code, attemptValue (env i (PROMPT_format code)))) =
      fun _ : Nat => PROMPT_format code := rfl
  simp [hc]

/-- Any result list `process_row` actually returns has length `ask_repeats`. -/
theorem process_row_some_length (fs : FS) (env : InferEnv) (cd : String) (row : Row)
    (reps : Nat) (results : List Int)
    (h : (process_row fs env cd row reps).2 = some results) :
    results.length = reps := by
  cases hfs : fs (cachePath cd row.file_path) with
  | none => simp [process_row, read_source, hfs] at h
  | some code =>
      rw [process_row_resolved fs env cd row reps code hfs] at h
      simp only [Option.some.injEq] at h
      simp [← h]

/-- C1: for every input row whose cached content resolves successfully,
`process_row` returns a result sequence whose length is exactly the
configured `ask_repeats`, whatever the outcome of each individual attempt
(in particular when every attempt fails). -/
theorem claim_C1 (fs : FS) (env : InferEnv) (cache_dir : String) (row : Row)
    (ask_repeats : Nat) (code : String)
    (h : fs (cachePath cache_dir row.file_path) = some code) :
    ∃ results, (process_row fs env cache_dir row ask_repeats).2 = some results ∧
      results.length = ask_repeats := by
  rw [process_row_resolved fs env cache_dir row ask_repeats code h]
  exact ⟨_, rfl, by simp⟩

/-- C1 witness: a concrete row whose cache resolves, with every attempt
failing, still yields exactly 3 results. -/
theorem claim_C1_witness :
    ∃ results, (process_row (fun _ => some "int x;") (fun _ _ => .raises) "cache"
        ⟨"Foo.java", some "42"⟩ 3).2 = some results ∧ results.length = 3 :=
  claim_C1 (fun _ => some "int x;") (fun _ _ => .raises) "cache"
    ⟨"Foo.java", some "42"⟩ 3 "int x;" rfl

/-- C2: if the inference client raises for attempt `i` of a row, or that
attempt's response fails to parse, the value recorded for attempt `i` is
exactly -1; every attempt of the row still executes and records the value
its own outcome determines, and a run over such a row still completes
with exit code 0 — the failed attempt aborts neither the row nor the
run. -/
theorem claim_C2 (fs : FS) (env : Nat → InferEnv) (cache_dir : String) (row : Row)
    (ask_repeats : Nat) (code m : String) (i : Nat)
    (hfs : fs (cachePath cache_dir row.file_path) = some code)
    (hm : row.measures = some m)
    (hi : i < ask_repeats)
    (hbad : env 0 i (PROMPT_format code) = .raises ∨
            env 0 i (PROMPT_format code) = .returns .parseFail) :
    ∃ results, (process_row fs (env 0) cache_dir row ask_repeats).2 = some results ∧
      results.length = ask_repeats ∧
      results[i]? = some (-1) ∧
      (∀ j, j < ask_repeats →
        results[j]? = some (attemptValue (env 0 j (PROMPT_format code)))) ∧
      (process_rows fs env cache_dir ask_repeats [] [row]).2.2 = 0 := by
  rw [process_row_resolved fs (env 0) cache_dir row ask_repeats code hfs]
  refine ⟨_, rfl, by simp, ?_, ?_, ?_⟩
  · rcases hbad with hb | hb <;>
      simp [List.getElem?_map, List.getElem?_range, hi, hb, attemptValue]
  · intro j hj
    simp [List.getElem?_map, List.getElem?_range, hj]
  · simp [process_rows, process_rows_loop,
      process_row_resolved fs (env 0) cache_dir row ask_repeats code hfs, hm]

/-- C2 witness: three attempts, the middle one raising, record -1 in the
middle with both neighbours still executed, and the run completes. -/
theorem claim_C2_witness :
    ∃ results,
      (process_row
          (fun _ => some "int x;")
          ((fun _ i _ => if i = 1 then .raises
            else .returns (.parsed (.jobj [("seconds", .jint 10)]))) 0)
          "cache" ⟨"Foo.java", some "42"⟩ 3).2 = some results ∧
      results.length = 3 ∧
      results[1]? = some (-1) ∧
      (∀ j, j < 3 →
        results[j]? = some (attemptValue
          ((fun _ i _ => if i = 1 then .raises
            else .returns (.parsed (.jobj [("seconds", .jint 10)]))) 0 j
            (PROMPT_format "int x;")))) ∧
      (process_rows (fun _ => some "int x;")
          (fun _ i _ => if i = 1 then .raises
            else .returns (.parsed (.jobj [("seconds", .jint 10)])))
          "cache" 3 [] [⟨"Foo.java", some "42"⟩]).2.2 = 0 :=
  claim_C2 (fun _ => some "int x;")
    (fun _ i _ => if i = 1 then .raises
      else .returns (.parsed (.jobj [("seconds", .jint 10)])))
    "cache" ⟨"Foo.java", some "42"⟩ 3 "int x;" "42" 1 rfl rfl (by decide)
    (Or.inl rfl)

/-- C6: cache key derivation is deterministic — equal `file_path`s yield
equal digests, and the cache filename is exactly the hex digest of the
row's `file_path` with the `.txt` extension under the cache directory —
and `process_row` consults the filesystem at that one path only: any two
filesystems that agree there make the row behave identically. -/
theorem claim_C6 :
    (∀ p₁ p₂ : String, p₁ = p₂ → sha256hex p₁ = sha256hex p₂) ∧
    (∀ cd fp : String, cachePath cd fp = cd ++ "/" ++ sha256hex fp ++ ".txt") ∧
    (∀ (fs₁ fs₂ : FS) (env : InferEnv) (cd : String) (row : Row) (reps : Nat),
      fs₁ (cachePath cd row.file_path) = fs₂ (cachePath cd row.file_path) →
      process_row fs₁ env cd row reps = process_row fs₂ env cd row reps) := by
  refine ⟨fun p₁ p₂ h => by rw [h], fun cd fp => rfl,
    fun fs₁ fs₂ env cd row reps h => ?_⟩
  unfold process_row read_source
  rw [h]

/-- C6 witness: two concretely different filesystems that agree at the
derived cache path give the same row behaviour. -/
theorem claim_C6_witness :
    sha256hex "Foo.java" = sha256hex "Foo.java" ∧
    cachePath "cache" "Foo.java" = "cache" ++ "/" ++ sha256hex "Foo.java" ++ ".txt" ∧
    process_row (fun _ => some "int x;")
        (fun _ _ => AttemptOutcome.raises) "cache" ⟨"Foo.java", some "42"⟩ 2 =
      process_row (fun p => if p = cachePath "cache" "Foo.java" then some "int x;" else none)
        (fun _ _ => AttemptOutcome.raises) "cache" ⟨"Foo.java", some "42"⟩ 2 :=
  ⟨claim_C6.1 "Foo.java" "Foo.java" rfl,
   claim_C6.2.1 "cache" "Foo.java",
   claim_C6.2.2 (fun _ => some "int x;")
     (fun p => if p = cachePath "cache" "Foo.java" then some "int x;" else none)
     (fun _ _ => AttemptOutcome.raises) "cache" ⟨"Foo.java", some "42"⟩ 2
     (if_pos rfl).symm⟩

/-- C7: the prompt builder is a pure, deterministic function of the source
text — identical source text yields identical prompt text — and inside
`process_row` every request of a row carries that same one prompt
string. -/
theorem claim_C7 :
    (∀ c₁ c₂ : String, c₁ = c₂ → PROMPT_format c₁ = PROMPT_format c₂) ∧
    (∀ (fs : FS) (env : InferEnv) (cache_dir : String) (row : Row)
        (ask_repeats : Nat) (code : String),
      fs (cachePath cache_dir row.file_path) = some code →
      ∀ p ∈ (process_row fs env cache_dir row ask_repeats).1,
        p = PROMPT_format code) := by
  refine ⟨fun c₁ c₂ h => by rw [h], fun fs env cd row reps code h p hp => ?_⟩
  rw [process_row_resolved fs env cd row reps code h] at hp
  exact List.eq_of_mem_replicate hp

/-- C7 witness: on a concrete resolved row with two attempts, every sent
prompt equals the prompt built from the cached source. -/
theorem claim_C7_witness :
    PROMPT_format "int x;" = PROMPT_format "int x;" ∧
    ∀ p ∈ (process_row (fun _ => some "int x;") (fun _ _ => .raises) "cache"
        ⟨"Foo.java", some "42"⟩ 2).1, p = PROMPT_format "int x;" :=
  ⟨claim_C7.1 "int x;" "int x;" rfl,
   claim_C7.2 (fun _ => some "int x;") (fun _ _ => .raises) "cache"
     ⟨"Foo.java", some "42"⟩ 2 "int x;" rfl⟩

/-! ### Facts about the batch driver -/

/-- A row the batch loop handles without aborting: its cache file is
readable and its `measures` column is present. -/
def rowOk (fs : FS) (cache_dir : String) (row : Row) : Prop :=
  (∃ code, fs (cachePath cache_dir row.file_path) = some code) ∧
  ∃ m, row.measures = some m

/-- The loop over `pre ++ rest` splits when every row of `pre` succeeds:
traces and lines concatenate, and the final exit code is that of the
remainder. -/
theorem loop_append (fs : FS) (env : Nat → InferEnv) (cd : String) (reps : Nat)
    (pre rest : List Row) (k : Nat) (h : ∀ row ∈ pre, rowOk fs cd row) :
    process_rows_loop fs env cd reps k (pre ++ rest) =
      ((process_rows_loop fs env cd reps k pre).1 ++
         (process_rows_loop fs env cd reps (k + pre.length) rest).1,
       (process_rows_loop fs env cd reps k pre).2.1 ++
         (process_rows_loop fs env cd reps (k + pre.length) rest).2.1,
       (process_rows_loop fs env cd reps (k + pre.length) rest).2.2) := by
  induction pre generalizing k with
  | nil => simp [process_rows_loop]
  | cons row pre ih =>
      obtain ⟨⟨code, hc⟩, m, hm⟩ := h row (by simp)
      have hrest : ∀ r ∈ pre, rowOk fs cd r := fun r hr => h r (by simp [hr])
      have harith : k + 1 + pre.length = k + (pre.length + 1) := by omega
      simp only [List.cons_append, process_rows_loop,
        process_row_resolved fs (env k) cd row reps code hc, hm, List.length_cons,
        List.append_eq]
      rw [ih (k + 1) hrest]
      simp [harith]

/-- With every row succeeding, the loop completes with exit code 0 and
writes exactly one line per row. -/
theorem loop_all_ok (fs : FS) (env : Nat → InferEnv) (cd : String) (reps : Nat)
    (rows : List Row) (k : Nat) (h : ∀ row ∈ rows, rowOk fs cd row) :
    (process_rows_loop fs env cd reps k rows).2.2 = 0 ∧
    (process_rows_loop fs env cd reps k rows).2.1.length = rows.length := by
  induction rows generalizing k with
  | nil => simp [process_rows_loop]
  | cons row rows ih =>
      obtain ⟨⟨code, hc⟩, m, hm⟩ := h row (by simp)
      have hrest : ∀ r ∈ rows, rowOk fs cd r := fun r hr => h r (by simp [hr])
      have hr := ih (k + 1) hrest
      simp [process_rows_loop, process_row_resolved fs (env k) cd row reps code hc,
        hm, hr.1, hr.2]

/-- A row whose cache file is unreadable aborts the loop at once: exit
code 1, no requests sent for it, no line written for it or after it. -/
theorem loop_bad_fs (fs : FS) (env : Nat → InferEnv) (cd : String) (reps : Nat)
    (bad : Row) (rest : List Row) (k : Nat)
    (hbad : fs (cachePath cd bad.file_path) = none) :
    process_rows_loop fs env cd reps k (bad :: rest) = ([], [], 1) := by
  simp [process_rows_loop, process_row, read_source, hbad]

/-- A row with a readable cache file but no `measures` column aborts the
loop with exit code 1 after sending all `ask_repeats` requests for it,
writing no line for it or after it. -/
theorem loop_bad_measures (fs : FS) (env : Nat → InferEnv) (cd : String)
    (reps : Nat) (bad : Row) (rest : List Row) (k : Nat) (code : String)
    (hcode : fs (cachePath cd bad.file_path) = some code)
    (hm : bad.measures = none) :
    process_rows_loop fs env cd reps k (bad :: rest) =
      (List.replicate reps (PROMPT_format code), [], 1) := by
  simp [process_rows_loop, process_row_resolved fs (env k) cd bad reps code hcode, hm]

/-- Each data line of the loop corresponds, at the same index, to the
input row at that index and is that row's written line. -/
theorem loop_lines_correspond (fs : FS) (env : Nat → InferEnv) (cd : String)
    (reps : Nat) (rows : List Row) (k i : Nat) (line : List String)
    (h : (process_rows_loop fs env cd reps k rows).2.1[i]? = some line) :
    ∃ row m seconds, rows[i]? = some row ∧ row.measures = some m ∧
      seconds.length = reps ∧ line = lineFor row m seconds := by
  induction rows generalizing k i with
  | nil => simp [process_rows_loop] at h
  | cons row rows ih =>
      cases hp : (process_row fs (env k) cd row reps).2 with
      | none => simp [process_rows_loop, hp] at h
      | some seconds =>
          cases hm : row.measures with
          | none => simp [process_rows_loop, hp, hm] at h
          | some m =>
              simp only [process_rows_loop, hp, hm] at h
              cases i with
              | zero =>
                  simp at h
                  exact ⟨row, m, seconds, by simp, hm,
                    process_row_some_length fs (env k) cd row reps seconds hp, h.symm⟩
              | succ i =>
                  simp at h
                  obtain ⟨row', m', seconds', h1, h2, h3, h4⟩ := ih (k + 1) i h
                  exact ⟨row', m', seconds', by simpa using h1, h2, h3, h4⟩

/-- C3: if content resolution fails for a row, the run exits with code 1
and the output file consists of exactly the header and the lines written
for the prior rows — one intact line per prior row, none for the failing
row or any later row. -/
theorem claim_C3 (fs : FS) (env : Nat → InferEnv) (cd : String) (reps : Nat)
    (prev : List (List String)) (pre : List Row) (bad : Row) (rest : List Row)
    (hpre : ∀ row ∈ pre, rowOk fs cd row)
    (hbad : fs (cachePath cd bad.file_path) = none) :
    (process_rows fs env cd reps prev (pre ++ bad :: rest)).2.2 = 1 ∧
    (process_rows fs env cd reps prev (pre ++ bad :: rest)).2.1 =
      headerRow reps :: (process_rows_loop fs env cd reps 0 pre).2.1 ∧
    (process_rows_loop fs env cd reps 0 pre).2.1.length = pre.length := by
  have ha := loop_append fs env cd reps pre (bad :: rest) 0 hpre
  have hb := loop_bad_fs fs env cd reps bad rest pre.length hbad
  refine ⟨?_, ?_, (loop_all_ok fs env cd reps pre 0 hpre).2⟩ <;>
    simp [process_rows, open_w, ha, hb]

/-- Concrete filesystem for the run-level examples: row `B`'s cache file
is missing, every other path reads fine. -/
def fsMissingB : FS :=
  fun p => if p = cachePath "c" "B" then none else some "int x;"

/-- C3 witness: a two-row run whose second row's cache file is missing
keeps the first row's line, writes none for the second, and exits 1. -/
theorem claim_C3_witness :
    (process_rows fsMissingB (fun _ _ _ => .raises) "c" 2 [["junk"]]
        ([⟨"A", some "1"⟩] ++ ⟨"B", some "2"⟩ :: [])).2.2 = 1 ∧
    (process_rows fsMissingB (fun _ _ _ => .raises) "c" 2 [["junk"]]
        ([⟨"A", some "1"⟩] ++ ⟨"B", some "2"⟩ :: [])).2.1 =
      headerRow 2 :: (process_rows_loop fsMissingB (fun _ _ _ => .raises) "c" 2 0
        [⟨"A", some "1"⟩]).2.1 ∧
    (process_rows_loop fsMissingB (fun _ _ _ => .raises) "c" 2 0
        [⟨"A", some "1"⟩]).2.1.length = 1 :=
  claim_C3 fsMissingB (fun _ _ _ => .raises) "c" 2 [["junk"]]
    [⟨"A", some "1"⟩] ⟨"B", some "2"⟩ []
    (by
      intro r hr
      simp at hr
      subst hr
      exact ⟨⟨"int x;", by decide⟩, "1", rfl⟩)
    (if_pos rfl)

/-- C8: any data line of the output corresponds, at the same position, to
the input row of the same index — the output preserves input order — and
carries that row's `file_path` and `measures` values through unmodified,
followed by one cell per attempt. -/
theorem claim_C8 (fs : FS) (env : Nat → InferEnv) (cd : String) (reps : Nat)
    (prev : List (List String)) (rows : List Row) (i : Nat) (ln : List String)
    (h : (process_rows fs env cd reps prev rows).2.1[i + 1]? = some ln) :
    ∃ row m seconds, rows[i]? = some row ∧ row.measures = some m ∧
      seconds.length = reps ∧ ln = lineFor row m seconds ∧
      ln[0]? = some row.file_path ∧ ln[1]? = some m := by
  have h' : (process_rows_loop fs env cd reps 0 rows).2.1[i]? = some ln := by
    simpa [process_rows, open_w] using h
  obtain ⟨row, m, seconds, h1, h2, h3, h4⟩ :=
    loop_lines_correspond fs env cd reps rows 0 i ln h'
  exact ⟨row, m, seconds, h1, h2, h3, h4, by simp [h4, lineFor], by simp [h4, lineFor]⟩

/-- C8 witness: a one-row run whose attempt parses 10 writes the line
`["Foo.java", "42", "10"]` right after the header. -/
theorem claim_C8_witness :
    ∃ row m seconds,
      ([⟨"Foo.java", some "42"⟩] : List Row)[0]? = some row ∧
      row.measures = some m ∧ seconds.length = 1 ∧
      (["Foo.java", "42", "10"] : List String) = lineFor row m seconds ∧
      (["Foo.java", "42", "10"] : List String)[0]? = some row.file_path ∧
      (["Foo.java", "42", "10"] : List String)[1]? = some m :=
  claim_C8 (fun _ => some "int x;")
    (fun _ _ _ => .returns (.parsed (.jobj [("seconds", .jint 10)])))
    "cache" 1 [] [⟨"Foo.java", some "42"⟩] 0 ["Foo.java", "42", "10"] (by decide)

/-- C9: the output CSV is opened in truncating write mode before the
header is written: the run's result never depends on the output file's
previous content, and the final file is exactly the header row followed
by the data lines written during this run. -/
theorem claim_C9 (fs : FS) (env : Nat → InferEnv) (cd : String) (reps : Nat)
    (prev : List (List String)) (rows : List Row) :
    process_rows fs env cd reps prev rows = process_rows fs env cd reps [] rows ∧
    (process_rows fs env cd reps prev rows).2.1 =
      headerRow reps :: (process_rows_loop fs env cd reps 0 rows).2.1 := by
  constructor <;> simp [process_rows, open_w]

/-- C10: a row with a `file_path` but no `measures` column fails only at
the `row["measures"]` lookup inside the write call, after its attempts
have run: the run exits with code 1, the file ends with the prior rows'
lines and carries no line for that row, and the request trace shows all
`ask_repeats` requests for it were issued before the abort. -/
theorem claim_C10 (fs : FS) (env : Nat → InferEnv) (cd : String) (reps : Nat)
    (prev : List (List String)) (pre : List Row) (bad : Row) (rest : List Row)
    (code : String)
    (hpre : ∀ row ∈ pre, rowOk fs cd row)
    (hcode : fs (cachePath cd bad.file_path) = some code)
    (hm : bad.measures = none) :
    (process_rows fs env cd reps prev (pre ++ bad :: rest)).2.2 = 1 ∧
    (process_rows fs env cd reps prev (pre ++ bad :: rest)).2.1 =
      headerRow reps :: (process_rows_loop fs env cd reps 0 pre).2.1 ∧
    (process_rows fs env cd reps prev (pre ++ bad :: rest)).1 =
      (process_rows_loop fs env cd reps 0 pre).1 ++
        List.replicate reps (PROMPT_format code) ∧
    (List.replicate reps (PROMPT_format code)).length = reps := by
  have ha := loop_append fs env cd reps pre (bad :: rest) 0 hpre
  have hb := loop_bad_measures fs env cd reps bad rest pre.length code hcode hm
  refine ⟨?_, ?_, ?_, by simp⟩ <;> simp [process_rows, open_w, ha, hb]

/-- C10 witness: a run over exactly one row that lacks `measures` sends
all three requests, writes only the header, and exits 1. -/
theorem claim_C10_witness :
    (process_rows (fun _ => some "int x;") (fun _ _ _ => .raises) "c" 3 [["junk"]]
        ([] ++ ⟨"B", none⟩ :: [])).2.2 = 1 ∧
    (process_rows (fun _ => some "int x;") (fun _ _ _ => .raises) "c" 3 [["junk"]]
        ([] ++ ⟨"B", none⟩ :: [])).2.1 =
      headerRow 3 :: (process_rows_loop (fun _ => some "int x;")
        (fun _ _ _ => .raises) "c" 3 0 []).2.1 ∧
    (process_rows (fun _ => some "int x;") (fun _ _ _ => .raises) "c" 3 [["junk"]]
        ([] ++ ⟨"B", none⟩ :: [])).1 =
      (process_rows_loop (fun _ => some "int x;") (fun _ _ _ => .raises) "c" 3 0 []).1 ++
        List.replicate 3 (PROMPT_format "int x;") ∧
    (List.replicate 3 (PROMPT_format "int x;")).length = 3 :=
  claim_C10 (fun _ => some "int x;") (fun _ _ _ => .raises) "c" 3 [["junk"]]
    [] ⟨"B", none⟩ [] "int x;" (by simp) rfl rfl

/-! ### The attempt-value range (claims C4 and C5) -/

/-- C4 counterexample: the response value `{"seconds": -5}` satisfies the
integer-typed schema constraint the request sends, and the attempt records
-5 — an integer that is neither ≥ 0 nor the sentinel -1 — so the claimed
invariant "every attempt result is an integer ≥ 0 or exactly -1" fails on
the code, which applies `int()` with no sign check. -/
theorem claim_C4_counterexample :
    (process_row (fun _ => some "int x;")
        (fun _ _ => .returns (.parsed (.jobj [("seconds", .jint (-5))])))
        "cache" ⟨"Foo.java", some "42"⟩ 1).2 = some [-5] ∧
    ¬ (0 ≤ (-5 : Int) ∨ (-5 : Int) = -1) := by
  constructor
  · rw [process_row_resolved _ _ _ _ _ "int x;" rfl]
    rfl
  · decide

/-- C4 (amended): every attempt result is either the integer `int()`
produces from a successful response's `seconds` field or exactly the
sentinel -1; since the code imposes no sign check, the results are all
≥ 0 or -1 exactly under the additional assumption that every successfully
converted response value is non-negative. -/
theorem claim_C4_amended (fs : FS) (env : InferEnv) (cd : String) (row : Row)
    (reps : Nat) (code : String)
    (hfs : fs (cachePath cd row.file_path) = some code)
    (hpos : ∀ i v n, env i (PROMPT_format code) = .returns (.parsed v) →
        extractSeconds v = some n → 0 ≤ n) :
    ∀ results, (process_row fs env cd row reps).2 = some results →
      ∀ x ∈ results, 0 ≤ x ∨ x = -1 := by
  rw [process_row_resolved fs env cd row reps code hfs]
  intro results hres x hx
  obtain ⟨results, rfl⟩ := Option.some.inj hres
  simp at hx
  obtain ⟨i, _, hx⟩ := hx
  cases he : env i (PROMPT_format code) with
  | raises => rw [he] at hx; right; exact hx.symm
  | returns p =>
      cases p with
      | parseFail => rw [he] at hx; right; exact hx.symm
      | parsed v =>
          rw [he] at hx
          cases hs : extractSeconds v with
          | none => right; rw [← hx]; simp [attemptValue, hs]
          | some n =>
              left
              have : attemptValue (.returns (.parsed v)) = n := by
                simp [attemptValue, hs]
              rw [← hx, this]
              exact hpos i v n he hs

/-- C4 amended witness: with every response converting to 7, a recorded
value of a three-attempt row is ≥ 0 or -1. -/
theorem claim_C4_amended_witness :
    0 ≤ (7 : Int) ∨ (7 : Int) = -1 :=
  claim_C4_amended (fun _ => some "int x;")
    (fun _ _ => .returns (.parsed (.jobj [("seconds", .jint 7)])))
    "cache" ⟨"Foo.java", some "42"⟩ 3 "int x;" rfl
    (by
      intro i v n hv he
      cases hv
      rw [show extractSeconds (.jobj [("seconds", .jint 7)]) = some 7 from rfl] at he
      obtain ⟨rfl⟩ := Option.some.inj he
      decide)
    [7, 7, 7]
    (by rw [process_row_resolved _ _ _ _ _ "int x;" rfl]; rfl)
    7 (by decide)

/-- C5 counterexample: the response `{"seconds": "10"}` carries a
`seconds` field that is a JSON string, not an integer, yet `int("10")`
succeeds, so the attempt records 10 rather than the claimed sentinel -1:
the claim's "a seconds field that is not an integer is recorded as -1"
fails on the code. -/
theorem claim_C5_counterexample :
    jsonGet (JsonVal.jobj [("seconds", JsonVal.jstr "10")]) "seconds" =
      some (JsonVal.jstr "10") ∧
    (process_row (fun _ => some "int x;")
        (fun _ _ => .returns (.parsed (.jobj [("seconds", .jstr "10")])))
        "cache" ⟨"Foo.java", some "42"⟩ 1).2 = some [10] ∧
    (10 : Int) ≠ -1 := by
  refine ⟨rfl, ?_, by decide⟩
  rw [process_row_resolved _ _ _ _ _ "int x;" rfl]
  rfl

/-- C5 (amended): an attempt records the sentinel -1 when the inference
request raises, when the response is not valid JSON, and when the decoded
value has no `seconds` entry or a `seconds` entry that Python's `int()`
cannot convert (null, array, object, or a non-numeric string); a
convertible non-integer `seconds` field (a numeric string or a boolean)
records the converted integer instead. -/
theorem claim_C5_amended (fs : FS) (env : InferEnv) (cd : String) (row : Row)
    (reps : Nat) (code : String) (i : Nat)
    (hfs : fs (cachePath cd row.file_path) = some code)
    (hi : i < reps)
    (hbad : env i (PROMPT_format code) = .raises ∨
            env i (PROMPT_format code) = .returns .parseFail ∨
            ∃ v, env i (PROMPT_format code) = .returns (.parsed v) ∧
              extractSeconds v = none) :
    ∃ results, (process_row fs env cd row reps).2 = some results ∧
      results[i]? = some (-1) := by
  rw [process_row_resolved fs env cd row reps code hfs]
  refine ⟨_, rfl, ?_⟩
  rcases hbad with hb | hb | ⟨v, hb, hv⟩
  · simp [List.getElem?_map, List.getElem?_range, hi, hb, attemptValue]
  · simp [List.getElem?_map, List.getElem?_range, hi, hb, attemptValue]
  · simp [List.getElem?_map, List.getElem?_range, hi, hb, attemptValue, hv]

/-- C5 amended witness: a response whose decoded value has no `seconds`
entry records -1 for that attempt. -/
theorem claim_C5_amended_witness :
    ∃ results,
      (process_row (fun _ => some "int x;")
          (fun _ _ => .returns (.parsed (.jobj [("other", .jint 3)])))
          "cache" ⟨"Foo.java", some "42"⟩ 2).2 = some results ∧
      results[0]? = some (-1) :=
  claim_C5_amended (fun _ => some "int x;")
    (fun _ _ => .returns (.parsed (.jobj [("other", .jint 3)])))
    "cache" ⟨"Foo.java", some "42"⟩ 2 "int x;" 0 rfl (by decide)
    (Or.inr (Or.inr ⟨.jobj [("other", .jint 3)], rfl, rfl⟩))

end EstimateTime
